import Mathlib

/-!
Shallow embedding of `src/data_transformer.py`.

Modelling conventions:
* A Python scalar value that can appear in a pandas row is a `PyVal`:
  `None`, the float `nan`, the infinities, finite floats, ints and strings.
* Python floats are modelled by exact rationals; float arithmetic is
  idealised as exact arithmetic on those rationals, and overflow of
  `float(...)` on huge decimal literals is not modelled.
* A pandas `Series` (one CSV row) is an association list from column names
  (as `List Char`) to `PyVal`, in column order; `row.index` is the list of
  keys, `row[c]` and `row.get(c, d)` are lookups into it.
* A Python `dict` is an association list kept in first-insertion key order
  with in-place value update (`dictInsert`), mirroring `prices[name] = val`.
* The `created_at` field (`datetime.now().isoformat()`, line 130) is
  wall-clock input and is left out of the embedded document.
* `str(...)` on a float is modelled by an exact decimal expansion truncated
  at 25 fractional digits; it is exact on values with a finite decimal form.
* Exceptions are modelled with `Except`; the embedded functions are total.
-/

/-- A Python scalar value as it can occur in a row of the loaded CSV. -/
inductive PyVal where
  | pnone
  | pnan
  | pinf (neg : Bool)
  | pint (n : ℤ)
  | pfloat (q : ℚ)
  | pstr (s : List Char)
  deriving DecidableEq

/-- Result of Python `float(...)`: a finite value, `nan`, or an infinity. -/
inductive FloatVal where
  | finite (q : ℚ)
  | nan
  | inf (neg : Bool)
  deriving DecidableEq

/-- A Python number as stored in the output document: either an `int` or a
`float`.  The distinction matters because lines 127-129 of the source fall
back to the int literal `0` while line 126 always applies `float(...)`. -/
inductive PyNum where
  | int (n : ℤ)
  | float (q : ℚ)
  deriving DecidableEq

/-- True exactly for the `float` alternative of `PyNum`. -/
def PyNum.isFloat : PyNum → Bool
  | .float _ => true
  | .int _ => false

/-- Characters stripped by Python `str.strip()` during `float(s)`. -/
def isPySpace (c : Char) : Bool :=
  c == ' ' || c == '\t' || c == '\n' || c == '\r' || c == '\x0b' || c == '\x0c'

/-- Strip leading and trailing whitespace, as `float(...)` does on strings. -/
def stripWs (s : List Char) : List Char :=
  ((s.dropWhile isPySpace).reverse.dropWhile isPySpace).reverse

/-- Split a leading sign character off a numeric literal. -/
def splitSign : List Char → Bool × List Char
  | '-' :: rest => (true, rest)
  | '+' :: rest => (false, rest)
  | s => (false, s)

/-- Decimal digits to a natural number. -/
def digitsToNat (ds : List Char) : ℕ :=
  ds.foldl (fun a c => a * 10 + (c.toNat - 48)) 0

/-- Lowercase every character (ASCII, as in the numeric literals involved). -/
def lowerAll (s : List Char) : List Char := s.map Char.toLower

/-- Split a float literal at the first exponent marker `e`/`E`. -/
def splitAtExp : List Char → List Char × Option (List Char)
  | [] => ([], none)
  | c :: rest =>
    if c == 'e' || c == 'E' then ([], some rest)
    else
      let p := splitAtExp rest
      (c :: p.1, p.2)

/-- Parse the mantissa `digits[.digits]` of a float literal (at least one
digit overall; `5.` and `.5` are accepted, as in Python). -/
def parseMantissa (m : List Char) : Option ℚ :=
  let intPart := m.takeWhile Char.isDigit
  let rest := m.drop intPart.length
  match rest with
  | [] => if intPart.isEmpty then none else some ((digitsToNat intPart : ℚ))
  | '.' :: frac =>
    if frac.all Char.isDigit && !(intPart.isEmpty && frac.isEmpty) then
      some ((digitsToNat (intPart ++ frac) : ℚ) / (10 : ℚ) ^ frac.length)
    else none
  | _ => none

/-- Parse a signed exponent. -/
def parseExp (e : List Char) : Option ℤ :=
  let p := splitSign e
  if p.2.isEmpty || !(p.2.all Char.isDigit) then none
  else some (if p.1 then -(digitsToNat p.2 : ℤ) else (digitsToNat p.2 : ℤ))

/-- Python `float(s)` on a string: strip whitespace, optional sign, then
`inf`/`infinity`/`nan` (case-insensitive) or a decimal literal with an
optional exponent.  `Except.error` models the raised `ValueError`. -/
def parseFloat (s0 : List Char) : Except Unit FloatVal :=
  let s := stripWs s0
  let p := splitSign s
  let lb := lowerAll p.2
  if lb == ("inf".toList) || lb == ("infinity".toList) then .ok (.inf p.1)
  else if lb == ("nan".toList) then .ok .nan
  else
    let me := splitAtExp p.2
    match parseMantissa me.1, me.2 with
    | some q, none => .ok (.finite (if p.1 then -q else q))
    | some q, some e =>
      match parseExp e with
      | some ex => .ok (.finite ((if p.1 then -q else q) * (10 : ℚ) ^ ex))
      | none => .error ()
    | none, _ => .error ()

/-- Python `float(value)` on an arbitrary `PyVal`; `float(None)` raises. -/
def pyFloat : PyVal → Except Unit FloatVal
  | .pnone => .error ()
  | .pnan => .ok .nan
  | .pinf b => .ok (.inf b)
  | .pint n => .ok (.finite (n : ℚ))
  | .pfloat q => .ok (.finite q)
  | .pstr s => parseFloat s

/-- `pd.isna` on a scalar: true for `None` and the float `nan` only. -/
def pd_isna : PyVal → Bool
  | .pnone => true
  | .pnan => true
  | _ => false

/-- Decimal digits of an integer, with a leading minus sign when negative. -/
def intRepr (n : ℤ) : List Char :=
  if n < 0 then '-' :: Nat.toDigits 10 n.natAbs else Nat.toDigits 10 n.toNat

/-- Fractional decimal digits of `r / d` (long division, fuelled). -/
def fracDigits : ℕ → ℕ → ℕ → List Char
  | 0, _, _ => []
  | _ + 1, 0, _ => []
  | fuel + 1, r, d => Char.ofNat (48 + r * 10 / d) :: fracDigits fuel (r * 10 % d) d

/-- Decimal rendering of a float value, in the style of Python `str`:
always at least one fractional digit (`str(2.0) = "2.0"`). -/
def floatRepr (q : ℚ) : List Char :=
  let sign : List Char := if q < 0 then [ '-' ] else []
  let n := q.num.natAbs
  let d := q.den
  let fr := if n % d = 0 then [ '0' ] else fracDigits 25 (n % d) d
  sign ++ Nat.toDigits 10 (n / d) ++ [ '.' ] ++ fr

/-- Python `str(value)`. -/
def pyStr : PyVal → List Char
  | .pstr s => s
  | .pnone => ("None".toList)
  | .pnan => ("nan".toList)
  | .pinf b => if b then ("-inf".toList) else ("inf".toList)
  | .pint n => intRepr n
  | .pfloat q => floatRepr q

/-- One CSV row as pandas hands it to `transform_row_to_document`: column
names paired with cell values, in column order. -/
abbrev Row := List (List Char × PyVal)

/-- `row.get(col)` (no default): first column with a matching name. -/
def rowGet (row : Row) (col : List Char) : Option PyVal :=
  (row.find? (fun p => decide (p.1 = col))).map Prod.snd

/-- `row.get(col, dflt)`. -/
def rowGetD (row : Row) (col : List Char) (dflt : PyVal) : PyVal :=
  (rowGet row col).getD dflt

/-- `row[col]` at the call sites of the source, where `col` is always drawn
from `row.index`; the `.pnone` fallback is never reached there. -/
def rowVal (row : Row) (col : List Char) : PyVal :=
  rowGetD row col .pnone

/-- Membership of the character class `[SMXL\d]` of the size pattern
(source line 13). -/
def sizeCharOk (c : Char) : Bool :=
  c == 'S' || c == 'M' || c == 'X' || c == 'L' || c.isDigit

/-- Whether `t` is matched in full by the group `[SMXL\d]+XL?` of the
pattern `_([SMXL\d]+XL?)$` (line 13).  A full match is a decomposition
`t = u ++ [X]` or `t = u ++ [X, L]` with `u` a non-empty run of class
characters; since `X` and `L` are themselves class characters this is
equivalent to: every character of `t` is in the class, and `t` either ends
in `X` with length at least 2 or ends in `XL` with length at least 3. -/
def matchesSizeToken (t : List Char) : Bool :=
  t.all sizeCharOk &&
    (match t.reverse with
     | 'X' :: _ :: _ => true
     | 'L' :: 'X' :: _ :: _ => true
     | _ => false)

/-- `re.search` of `_([SMXL\d]+XL?)$`: scan for the leftmost underscore
whose whole remaining suffix is matched by the group (the `$` anchor forces
the group to reach the end of the string); return that suffix. -/
def findSizeToken : List Char → Option (List Char)
  | [] => none
  | c :: rest =>
    if c == '_' && matchesSizeToken rest then some rest
    else findSizeToken rest

/-- `extract_size_from_sku` (source lines 10-17): `None` unless the input
is a string (`pd.isna` / `isinstance` guard), else the regex search. -/
def extract_size_from_sku : PyVal → Option (List Char)
  | .pstr s => findSizeToken s
  | _ => none

/-- Python `platform_col.replace(' MRP', '')`: remove every (left-to-right,
non-overlapping) occurrence of `' MRP'`. -/
def removeMRP : List Char → List Char
  | ' ' :: 'M' :: 'R' :: 'P' :: rest => removeMRP rest
  | c :: rest => c :: removeMRP rest
  | [] => []

/-- `.lower()` on the ASCII column names involved. -/
def toLowerStr (s : List Char) : List Char := s.map Char.toLower

/-- `.replace(' ', '_')`. -/
def spacesToUnderscores (s : List Char) : List Char :=
  s.map (fun c => if c == ' ' then '_' else c)

/-- `standardize_platform_name` (source lines 20-22). -/
def standardize_platform_name (platform_col : List Char) : List Char :=
  spacesToUnderscores (toLowerStr (removeMRP platform_col))

/-- `safe_float` (source lines 25-43).  The `default` argument is a float
or `None` in the source (both call patterns occur), hence `Option ℚ`:
`None` first, then the `pd.isna` check, then `float(...)` with the
`nan`/`inf` test, every failure path returning `default`. -/
def safe_float (value : PyVal) (default : Option ℚ) : Option ℚ :=
  match value with
  | .pnone => default
  | v =>
    if pd_isna v then default
    else
      match pyFloat v with
      | .ok (.finite q) => some q
      | .ok _ => default
      | .error _ => default

/-- `safe_float` at its `default=0.0` call sites (lines 114, 118-120). -/
def safe_float0 (value : PyVal) : ℚ :=
  (safe_float value (some 0)).getD 0

/-- Python `pat in s` for lists of characters: some suffix of `s` starts
with `pat`. -/
def hasSubstr (pat : List Char) : List Char → Bool
  | [] => pat.isEmpty
  | c :: rest => pat.isPrefixOf (c :: rest) || hasSubstr pat rest

/-- The platform-column filter of line 90: name contains `MRP` and is not
one of the two reserved columns. -/
def platformColumns (row : Row) : List (List Char) :=
  (row.map Prod.fst).filter (fun col =>
    hasSubstr ("MRP".toList) col
      && !(col == ("MRP Old".toList)) && !(col == ("Final MRP Old".toList)))

/-- The per-column test of lines 49-50 / 94-95:
`val = safe_float(row[col], default=None)` followed by
`val is not None and val > 0`. -/
def qualify (row : Row) (col : List Char) : Option ℚ :=
  match safe_float (rowVal row col) none with
  | some v => if 0 < v then some v else none
  | none => none

/-- Python dict assignment `d[k] = v`: update the value in place when the
key is present (keeping its position — a dict never holds a key twice), or
append the new entry at the end. -/
def dictInsert : List (List Char × ℚ) → List Char → ℚ → List (List Char × ℚ)
  | [], k, v => [(k, v)]
  | p :: rest, k, v => if p.1 = k then (k, v) :: rest else p :: dictInsert rest k v

/-- The body of the dict-building loop of lines 48-52, repeated verbatim at
lines 93-97: insert `standardize_platform_name(col) ↦ val` when the column
qualifies. -/
def insStep (row : Row) (d : List (List Char × ℚ)) (col : List Char) :
    List (List Char × ℚ) :=
  match qualify row col with
  | some v => dictInsert d (standardize_platform_name col) v
  | none => d

/-- The dict built by the loop of lines 47-52 / 92-97, over the platform
columns in column order, starting from the empty dict. -/
def qualifyingPrices (row : Row) (cols : List (List Char)) :
    List (List Char × ℚ) :=
  cols.foldl (insStep row) []

/-- Python `min(items, key=lambda x: x[1])`: first pair with minimal second
component (ties keep the earlier element, as `min` replaces only on a
strictly smaller key). -/
def minBySnd : List (List Char × ℚ) → Option (List Char × ℚ)
  | [] => none
  | p :: rest =>
    match minBySnd rest with
    | none => some p
    | some q => if p.2 ≤ q.2 then some p else some q

/-- `calculate_cheapest_platform` (source lines 46-57). -/
def calculate_cheapest_platform (row : Row) (platform_cols : List (List Char)) :
    Option (List Char) × Option ℚ :=
  match minBySnd (qualifyingPrices row platform_cols) with
  | some kv => (some kv.1, some kv.2)
  | none => (none, none)

/-- The `platform_prices` list of lines 101-105: the qualifying values, in
column order, duplicates kept. -/
def platformPriceList (row : Row) (cols : List (List Char)) : List ℚ :=
  cols.filterMap (fun col => qualify row col)

/-- Python `max` over a list, head-seeded (meaningful on non-empty input). -/
def listMax : List ℚ → ℚ
  | [] => 0
  | x :: xs => xs.foldl max x

/-- Python `min` over a list, head-seeded (meaningful on non-empty input). -/
def listMin : List ℚ → ℚ
  | [] => 0
  | x :: xs => xs.foldl min x

/-- Python `sum`. -/
def listSum (l : List ℚ) : ℚ := l.foldl (· + ·) 0

/-- The `product` sub-document (lines 111-116). -/
structure ProductInfo where
  catalog : List Char
  category : List Char
  weight : ℚ
  size : Option (List Char)
  deriving DecidableEq

/-- The `pricing` sub-document (lines 117-121). -/
structure PricingInfo where
  tp : ℚ
  mrp_old : ℚ
  final_mrp_old : ℚ
  deriving DecidableEq

/-- The `metadata` sub-document (lines 123-132), minus `created_at`. -/
structure MetadataInfo where
  cheapest_platform : Option (List Char)
  cheapest_price : Option ℚ
  price_range : PyNum
  min_price : PyNum
  max_price : PyNum
  avg_price : PyNum
  data_source : List Char
  deriving DecidableEq

/-- The output document (lines 108-133), minus `created_at`. -/
structure Document where
  sku : List Char
  style_id : List Char
  product : ProductInfo
  pricing : PricingInfo
  ecommerce_platforms : List (List Char × ℚ)
  metadata : MetadataInfo
  deriving DecidableEq

/-- `transform_row_to_document` (source lines 60-135).  The local variables
`platform_cols`, `ecommerce_platforms`, `cheapest_*`, `platform_prices` and
`price_range` of the source are inlined through the helper definitions
above; note line 106 (`price_range` over the column price list, not the
dict) and lines 127-129 (int literal `0` fallback outside `float(...)`). -/
def transform_row_to_document (row : Row) : Document :=
  { sku := pyStr (rowGetD row ("Sku".toList) (.pstr []))
    style_id := pyStr (rowGetD row ("Style Id".toList) (.pstr []))
    product :=
      { catalog := pyStr (rowGetD row ("Catalog".toList) (.pstr []))
        category := pyStr (rowGetD row ("Category".toList) (.pstr []))
        weight := safe_float0 (rowGetD row ("Weight".toList) (.pint 0))
        size := extract_size_from_sku
          (.pstr (pyStr (rowGetD row ("Sku".toList) (.pstr [])))) }
    pricing :=
      { tp := safe_float0 (rowGetD row ("TP".toList) (.pint 0))
        mrp_old := safe_float0 (rowGetD row ("MRP Old".toList) (.pint 0))
        final_mrp_old :=
          safe_float0 (rowGetD row ("Final MRP Old".toList) (.pint 0)) }
    ecommerce_platforms := qualifyingPrices row (platformColumns row)
    metadata :=
      { cheapest_platform :=
          (calculate_cheapest_platform row (platformColumns row)).1
        cheapest_price :=
          (calculate_cheapest_platform row (platformColumns row)).2
        price_range := .float
          (if (platformPriceList row (platformColumns row)).isEmpty then 0
           else listMax (platformPriceList row (platformColumns row))
             - listMin (platformPriceList row (platformColumns row)))
        min_price :=
          if (platformPriceList row (platformColumns row)).isEmpty then .int 0
          else .float (listMin (platformPriceList row (platformColumns row)))
        max_price :=
          if (platformPriceList row (platformColumns row)).isEmpty then .int 0
          else .float (listMax (platformPriceList row (platformColumns row)))
        avg_price :=
          if (platformPriceList row (platformColumns row)).isEmpty then .int 0
          else .float
            (listSum (platformPriceList row (platformColumns row))
              / ((platformPriceList row (platformColumns row)).length : ℚ))
        data_source := ("May-2022".toList) } }

/-- `if limit: df = df.head(limit)` (lines 143-144): `None` and `0` are
falsy; `df.head(n)` keeps the first `n` rows for `n ≥ 0` and drops the
last `|n|` rows for negative `n`. -/
def applyLimit (limit : Option ℤ) (rows : List Row) : List Row :=
  match limit with
  | none => rows
  | some n =>
    if n = 0 then rows
    else if 0 ≤ n then rows.take n.toNat
    else rows.take (rows.length - (-n).toNat)

/-- The `for idx, row in df.iterrows(): try ... except ... continue` loop
of lines 149-156, over an `Except`-valued per-row mapper (the raised
exception of the source is the `error` case). -/
def transformLoop (f : Row → Except Unit Document) : List Row → List Document
  | [] => []
  | r :: rest =>
    match f r with
    | .ok d => d :: transformLoop f rest
    | .error _ => transformLoop f rest

/-- `transform_csv_to_documents` (lines 138-159), with `pd.read_csv`
replaced by the in-memory row list it produces.  The embedded
`transform_row_to_document` is total, so the mapper always returns `ok`. -/
def transform_csv_to_documents (rows : List Row) (limit : Option ℤ) :
    List Document :=
  transformLoop (fun r => Except.ok (transform_row_to_document r))
    (applyLimit limit rows)

/-- `Except` to `Option`, used to state what the skip-on-error loop keeps. -/
def okValue : Except Unit Document → Option Document
  | .ok d => some d
  | .error _ => none

/-- Folding `dictInsert` over a list of entries: the flattened view of the
dict-building loop, used to reason about `qualifyingPrices`. -/
def dictFoldl (d : List (List Char × ℚ)) (es : List (List Char × ℚ)) :
    List (List Char × ℚ) :=
  es.foldl (fun acc e => dictInsert acc e.1 e.2) d

/-- The qualifying `(normalized name, value)` entries of the platform
columns, in column order (before dict key collapsing). -/
def qualEntries (row : Row) (cols : List (List Char)) :
    List (List Char × ℚ) :=
  cols.filterMap (fun col =>
    (qualify row col).map (fun v => (standardize_platform_name col, v)))

/-- The values stored in a dict, in iteration order. -/
def mappingValues (m : List (List Char × ℚ)) : List ℚ := m.map Prod.snd

/-- Modelled from the spec: `price_range = max(values) - min(values)` over
exactly the values present in the `ecommerce_platforms` mapping, and `0`
when that mapping is empty (spec section 8 and the `price_range`
invariant).  To be compared with the `price_range` the code computes. -/
def mappingRange (m : List (List Char × ℚ)) : ℚ :=
  if m.isEmpty then 0 else listMax (mappingValues m) - listMin (mappingValues m)

/-- Modelled from the spec: `standardizePlatformName` as described in
section 4.1 — strip only a *trailing* `" MRP"` suffix, then lowercase and
replace spaces by underscores.  To be compared with the code's
`standardize_platform_name`, which removes every occurrence. -/
def standardize_trailing_only (s : List Char) : List Char :=
  let stripped := if (" MRP".toList).isSuffixOf s then s.take (s.length - 4) else s
  spacesToUnderscores (toLowerStr stripped)

/-- Modelled from the spec's words for `safeFloat`: the input is "bad"
when it is missing/null, `nan`, non-numeric, or converts to `nan` or an
infinity; on exactly these inputs the default is returned. -/
def isBadFloatInput (v : PyVal) : Bool :=
  decide (v = PyVal.pnone) || pd_isna v ||
    (match pyFloat v with
     | .ok (.finite _) => false
     | _ => true)

/-- A row whose two platform columns collapse to the same normalized key
`amazon`, so the dict holds one entry while the column price list holds
two prices. -/
def rowCollide : Row :=
  [(("Amazon MRP".toList), .pfloat 100), (("Amazon MRP MRP".toList), .pfloat 50)]

/-- The spec's example row: `Amazon MRP=100`, `Ajio MRP=80` (distinct
normalized keys). -/
def rowAmazonAjio : Row :=
  [(("Amazon MRP".toList), .pfloat 100), (("Ajio MRP".toList), .pfloat 80)]

/-- A row with a single platform column whose value `0` does not qualify. -/
def rowZeroPrice : Row := [(("Amazon MRP".toList), .pfloat 0)]

/-- A row with one qualifying platform column. -/
def rowAmazonOnly : Row := [(("Amazon MRP".toList), .pfloat 100)]

/-- A row whose `Sku` cell holds the pandas missing sentinel `nan`. -/
def rowNanSku : Row := [(("Sku".toList), PyVal.pnan)]

/-- Three empty rows, used to exercise the row limit on concrete data. -/
def rowsThree : List Row := [[], [], []]

section
attribute [local semireducible] Rat.add Rat.sub Rat.mul Rat.inv

/-- Unfolding of the qualifying test: a column contributes the value `v`
exactly when `safe_float` with default `None` yields `v` and `v > 0`. -/
theorem qualify_eq_some (row : Row) (col : List Char) (v : ℚ) :
    qualify row col = some v ↔
      safe_float (rowVal row col) none = some v ∧ 0 < v := by
  unfold qualify
  cases h : safe_float (rowVal row col) none with
  | none => simp
  | some u =>
    by_cases hu : 0 < u
    · simp only [if_pos hu, Option.some.injEq]
      constructor
      · rintro rfl; exact ⟨rfl, hu⟩
      · rintro ⟨h1, _⟩; exact h1
    · simp only [if_neg hu, Option.some.injEq]
      constructor
      · intro h1; exact Option.noConfusion h1
      · rintro ⟨rfl, hv⟩; exact absurd hv hu

/-- Keys after a dict insert: the inserted key joins the existing ones. -/
theorem mem_keys_dictInsert (d : List (List Char × ℚ)) (k v k') :
    k' ∈ (dictInsert d k v).map Prod.fst ↔ k' ∈ d.map Prod.fst ∨ k' = k := by
  induction d with
  | nil => simp [dictInsert]
  | cons p rest ih =>
    by_cases hp : p.1 = k
    · simp [dictInsert, hp]
      tauto
    · simp [dictInsert, hp, ih]
      tauto

/-- Every pair of `dictInsert d k v` is a pair of `d` or the new pair. -/
theorem mem_dictInsert (d : List (List Char × ℚ)) (k v p)
    (hp : p ∈ dictInsert d k v) : p ∈ d ∨ p = (k, v) := by
  induction d with
  | nil =>
    simp [dictInsert] at hp
    exact Or.inr hp
  | cons q rest ih =>
    by_cases hq : q.1 = k
    · simp only [dictInsert, if_pos hq, List.mem_cons] at hp
      rcases hp with rfl | h
      · exact Or.inr rfl
      · exact Or.inl (List.mem_cons_of_mem q h)
    · simp only [dictInsert, if_neg hq, List.mem_cons] at hp
      rcases hp with rfl | h
      · exact Or.inl (List.mem_cons_self _ _)
      · rcases ih h with h2 | h2
        · exact Or.inl (List.mem_cons_of_mem q h2)
        · exact Or.inr h2

/-- A dict insert never produces the empty dict. -/
theorem dictInsert_ne_nil (d : List (List Char × ℚ)) (k v) :
    dictInsert d k v ≠ [] := by
  cases d with
  | nil => simp [dictInsert]
  | cons p rest =>
    by_cases hp : p.1 = k <;> simp [dictInsert, hp]

/-- Inserting a fresh key appends the entry. -/
theorem dictInsert_of_not_mem (d : List (List Char × ℚ)) (k v)
    (hk : k ∉ d.map Prod.fst) : dictInsert d k v = d ++ [(k, v)] := by
  induction d with
  | nil => rfl
  | cons p rest ih =>
    simp only [List.map_cons, List.mem_cons] at hk
    push_neg at hk
    have h1 : ¬ p.1 = k := fun h => hk.1 h.symm
    simp [dictInsert, h1, ih hk.2]

/-- The dict-building loop is the entry fold over the qualifying entries. -/
theorem foldl_insStep_eq_dictFoldl (row : Row) :
    ∀ (cols : List (List Char)) (d : List (List Char × ℚ)),
      cols.foldl (insStep row) d = dictFoldl d (qualEntries row cols)
  | [], d => by simp [dictFoldl, qualEntries]
  | col :: cols, d => by
    rw [List.foldl_cons]
    cases h : qualify row col with
    | none =>
      rw [show insStep row d col = d from by simp [insStep, h]]
      rw [foldl_insStep_eq_dictFoldl row cols d]
      simp [qualEntries, h]
    | some v =>
      rw [show insStep row d col
          = dictInsert d (standardize_platform_name col) v from by
        simp [insStep, h]]
      rw [foldl_insStep_eq_dictFoldl row cols _]
      simp [qualEntries, dictFoldl, h]

/-- `qualifyingPrices` as a dict fold over the qualifying entries. -/
theorem qualifyingPrices_eq_dictFoldl (row : Row) (cols : List (List Char)) :
    qualifyingPrices row cols = dictFoldl [] (qualEntries row cols) :=
  foldl_insStep_eq_dictFoldl row cols []

/-- Keys of a dict fold: the seed's keys plus the entries' keys. -/
theorem mem_keys_dictFoldl :
    ∀ (es d : List (List Char × ℚ)) (k : List Char),
      k ∈ (dictFoldl d es).map Prod.fst ↔
        k ∈ d.map Prod.fst ∨ ∃ e ∈ es, e.1 = k
  | [], d, k => by simp [dictFoldl]
  | e :: es, d, k => by
    rw [show dictFoldl d (e :: es) = dictFoldl (dictInsert d e.1 e.2) es from rfl]
    rw [mem_keys_dictFoldl es _ k, mem_keys_dictInsert]
    constructor
    · rintro ((h | h) | ⟨e2, he2, hk⟩)
      · exact Or.inl h
      · exact Or.inr ⟨e, List.mem_cons_self e es, h.symm⟩
      · exact Or.inr ⟨e2, List.mem_cons_of_mem e he2, hk⟩
    · rintro (h | ⟨e2, he2, hk⟩)
      · exact Or.inl (Or.inl h)
      · rcases List.mem_cons.mp he2 with rfl | h3
        · exact Or.inl (Or.inr hk.symm)
        · exact Or.inr ⟨e2, h3, hk⟩

/-- Every pair of a dict fold comes from the seed or from the entries. -/
theorem mem_dictFoldl :
    ∀ (es d : List (List Char × ℚ)) (p : List Char × ℚ),
      p ∈ dictFoldl d es → p ∈ d ∨ p ∈ es
  | [], d, p => by simp [dictFoldl]
  | e :: es, d, p => by
    intro hp
    rw [show dictFoldl d (e :: es) = dictFoldl (dictInsert d e.1 e.2) es from rfl] at hp
    rcases mem_dictFoldl es _ p hp with h | h
    · rcases mem_dictInsert d e.1 e.2 p h with h2 | h2
      · exact Or.inl h2
      · rw [h2]; exact Or.inr (List.mem_cons_self e es)
    · exact Or.inr (List.mem_cons_of_mem e h)

/-- A dict fold is empty exactly when both seed and entries are. -/
theorem dictFoldl_eq_nil_iff :
    ∀ (es d : List (List Char × ℚ)), dictFoldl d es = [] ↔ d = [] ∧ es = []
  | [], d => by simp [dictFoldl]
  | e :: es, d => by
    rw [show dictFoldl d (e :: es) = dictFoldl (dictInsert d e.1 e.2) es from rfl]
    rw [dictFoldl_eq_nil_iff es _]
    simp [dictInsert_ne_nil]

/-- With pairwise distinct keys the dict fold is a plain append. -/
theorem dictFoldl_of_nodup :
    ∀ (es d : List (List Char × ℚ)),
      (d.map Prod.fst ++ es.map Prod.fst).Nodup → dictFoldl d es = d ++ es
  | [], d, _ => by simp [dictFoldl]
  | e :: es, d, h => by
    rw [show dictFoldl d (e :: es) = dictFoldl (dictInsert d e.1 e.2) es from rfl]
    have hnd := h
    rw [List.map_cons, List.nodup_append] at hnd
    have hke : e.1 ∉ d.map Prod.fst := fun hmem =>
      hnd.2.2 hmem (List.mem_cons_self e.1 (es.map Prod.fst))
    rw [dictInsert_of_not_mem d e.1 e.2 hke]
    rw [dictFoldl_of_nodup es (d ++ [(e.1, e.2)]) ?_]
    · simp
    · simp only [List.map_append, List.map_cons, List.map_nil]
      have : d.map Prod.fst ++ [e.1] ++ es.map Prod.fst
          = d.map Prod.fst ++ e.1 :: es.map Prod.fst := by simp
      rw [this]
      exact h

/-- Membership in the qualifying entries list. -/
theorem mem_qualEntries (row : Row) (cols : List (List Char)) (k : List Char)
    (v : ℚ) :
    (k, v) ∈ qualEntries row cols ↔
      ∃ col, col ∈ cols ∧ qualify row col = some v ∧
        standardize_platform_name col = k := by
  unfold qualEntries
  rw [List.mem_filterMap]
  constructor
  · rintro ⟨col, hcol, hmap⟩
    rcases Option.map_eq_some'.mp hmap with ⟨u, hu, huv⟩
    have h1 : standardize_platform_name col = k := congrArg Prod.fst huv
    have h2 : u = v := congrArg Prod.snd huv
    exact ⟨col, hcol, h2 ▸ hu, h1⟩
  · rintro ⟨col, hcol, hq, hk⟩
    exact ⟨col, hcol, by rw [hq, Option.map_some', hk]⟩

/-- The column price list of lines 101-105 is the entry values in order. -/
theorem platformPriceList_eq_map_snd (row : Row) :
    ∀ cols : List (List Char),
      platformPriceList row cols = (qualEntries row cols).map Prod.snd
  | [] => by simp [platformPriceList, qualEntries]
  | col :: cols => by
    have ih := platformPriceList_eq_map_snd row cols
    cases h : qualify row col with
    | none => simpa [platformPriceList, qualEntries, h] using ih
    | some v => simpa [platformPriceList, qualEntries, h] using ih

/-- Python `min` yields `none` exactly on the empty list. -/
theorem minBySnd_eq_none_iff (l : List (List Char × ℚ)) :
    minBySnd l = none ↔ l = [] := by
  cases l with
  | nil => simp [minBySnd]
  | cons p rest =>
    simp only [minBySnd]
    cases minBySnd rest with
    | none => simp
    | some q => by_cases h : p.2 ≤ q.2 <;> simp [h]

/-- Python `min(items, key=lambda x: x[1])` returns the first pair whose
second component is minimal: everything before it is strictly larger,
everything after it is at least as large. -/
theorem minBySnd_spec :
    ∀ (l : List (List Char × ℚ)) (kv : List Char × ℚ), minBySnd l = some kv →
      ∃ pre post, l = pre ++ kv :: post ∧
        (∀ p ∈ pre, kv.2 < p.2) ∧ (∀ p ∈ post, kv.2 ≤ p.2)
  | [], kv, h => by simp [minBySnd] at h
  | p :: rest, kv, h => by
    rw [minBySnd] at h
    cases hrest : minBySnd rest with
    | none =>
      rw [hrest] at h
      have hnil : rest = [] := (minBySnd_eq_none_iff rest).mp hrest
      subst hnil
      cases h
      exact ⟨[], [], rfl, by simp, by simp⟩
    | some q =>
      rw [hrest] at h
      obtain ⟨pre, post, hl, hpre, hpost⟩ := minBySnd_spec rest q hrest
      have hq : ∀ x ∈ rest, q.2 ≤ x.2 := by
        intro x hx
        rw [hl] at hx
        rcases List.mem_append.mp hx with h1 | h2
        · exact le_of_lt (hpre x h1)
        · rcases List.mem_cons.mp h2 with rfl | h3
          · exact le_refl _
          · exact hpost x h3
      have h2 : (if p.2 ≤ q.2 then some p else some q) = some kv := h
      by_cases hle : p.2 ≤ q.2
      · rw [if_pos hle] at h2
        cases h2
        refine ⟨[], rest, rfl, by simp, ?_⟩
        intro x hx
        exact le_trans hle (hq x hx)
      · rw [if_neg hle] at h2
        cases h2
        push_neg at hle
        refine ⟨p :: pre, post, by rw [hl, List.cons_append], ?_, hpost⟩
        intro x hx
        rcases List.mem_cons.mp hx with rfl | h4
        · exact hle
        · exact hpre x h4

/-- `replace(' MRP', '')` keeps a character other than a space in place. -/
theorem removeMRP_cons_of_ne (c : Char) (l : List Char) (hc : c ≠ ' ') :
    removeMRP (c :: l) = c :: removeMRP l := by
  rw [removeMRP.eq_def]
  split
  case h_1 x rest heq => injection heq with h1 _; exact absurd h1 hc
  case h_2 x c2 rest2 hno heq => injection heq with h1 h2; rw [h1, h2]
  case h_3 x heq => simp at heq

/-- `replace(' MRP', '')` is the identity on space-free strings. -/
theorem removeMRP_nospace (w : List Char) (hw : ∀ c ∈ w, c ≠ ' ') :
    removeMRP w = w := by
  induction w with
  | nil => rfl
  | cons c rest ih =>
    rw [removeMRP_cons_of_ne c rest (hw c (List.mem_cons_self c rest))]
    rw [ih (fun x hx => hw x (List.mem_cons_of_mem c hx))]

/-- On a space-free base followed by `" MRP"`, `replace(' MRP', '')`
strips exactly that suffix. -/
theorem removeMRP_strip (w : List Char) (hw : ∀ c ∈ w, c ≠ ' ') :
    removeMRP (w ++ (" MRP".toList)) = w := by
  induction w with
  | nil => rfl
  | cons c rest ih =>
    rw [List.cons_append,
      removeMRP_cons_of_ne c _ (hw c (List.mem_cons_self c rest))]
    rw [ih (fun x hx => hw x (List.mem_cons_of_mem c hx))]

/-- The skip-on-error loop keeps exactly the successful results, in input
order. -/
theorem transformLoop_eq_filterMap (f : Row → Except Unit Document) :
    ∀ rows : List Row,
      transformLoop f rows = rows.filterMap (fun r => okValue (f r))
  | [] => rfl
  | r :: rest => by
    cases h : f r with
    | ok d =>
      simp [transformLoop, h, okValue, transformLoop_eq_filterMap f rest]
    | error e =>
      simp [transformLoop, h, okValue, transformLoop_eq_filterMap f rest]

/-- The skip-on-error loop distributes over concatenation: a failing row
affects no other row. -/
theorem transformLoop_append (f : Row → Except Unit Document)
    (rows1 rows2 : List Row) :
    transformLoop f (rows1 ++ rows2)
      = transformLoop f rows1 ++ transformLoop f rows2 := by
  rw [transformLoop_eq_filterMap, transformLoop_eq_filterMap,
    transformLoop_eq_filterMap, List.filterMap_append]

/-- When the mapper always succeeds, the loop is a plain map. -/
theorem transformLoop_ok_eq_map (g : Row → Document) :
    ∀ rows : List Row,
      transformLoop (fun r => Except.ok (g r)) rows = rows.map g
  | [] => rfl
  | r :: rest => by
    simp [transformLoop, transformLoop_ok_eq_map g rest]

/-- Claim C1: the spec says a SKU ending in an underscore plus a size token
yields that token, with `"TSHIRT_BLUE_XL"` yielding `"XL"`.  The code's
pattern `_([SMXL\d]+XL?)$` demands a literal `X` before the optional final
`L`, so the plain `_XL` suffix (and `_S`/`_M`/`_L`) never matches: the code
returns `None` on `"TSHIRT_BLUE_XL"`, against the spec's explicit example.
This theorem evaluates the embedded function at the failing input and at
the claim's other cases (no-suffix, non-string and missing inputs, and a
token the pattern does accept). -/
theorem extract_size_from_sku_xl_bug :
    extract_size_from_sku (.pstr ("TSHIRT_BLUE_XL".toList)) = none ∧
    extract_size_from_sku (.pstr ("TSHIRT_BLUE".toList)) = none ∧
    extract_size_from_sku (.pstr ("TSHIRT_BLUE_2XL".toList))
      = some ("2XL".toList) ∧
    extract_size_from_sku PyVal.pnone = none ∧
    extract_size_from_sku PyVal.pnan = none ∧
    extract_size_from_sku (PyVal.pint 7) = none := by
  decide

/-- Claim C6: for every input value and every default, `safe_float`
returns the default exactly on bad inputs (missing/null, `nan`,
non-numeric, or converting to `nan`/infinity) and otherwise the converted
finite float; the embedded function is total, so no exception escapes. -/
theorem safe_float_spec (v : PyVal) (d : Option ℚ) :
    (isBadFloatInput v = true → safe_float v d = d) ∧
    (isBadFloatInput v = false →
      ∃ q, pyFloat v = Except.ok (FloatVal.finite q) ∧ safe_float v d = some q) := by
  cases v with
  | pnone => simp [isBadFloatInput, safe_float]
  | pnan => simp [isBadFloatInput, safe_float, pd_isna, pyFloat]
  | pinf b => simp [isBadFloatInput, safe_float, pd_isna, pyFloat]
  | pint n => simp [isBadFloatInput, safe_float, pd_isna, pyFloat]
  | pfloat q => simp [isBadFloatInput, safe_float, pd_isna, pyFloat]
  | pstr s =>
    cases h : parseFloat s with
    | error e => simp [isBadFloatInput, safe_float, pd_isna, pyFloat, h]
    | ok fv =>
      cases fv <;> simp [isBadFloatInput, safe_float, pd_isna, pyFloat, h]

/-- Witness for C6 at concrete inputs: the non-numeric string `"abc"`
takes the default, the float `5/2` is passed through. -/
theorem safe_float_spec_witness :
    (isBadFloatInput (.pstr ("abc".toList)) = true ∧
      safe_float (.pstr ("abc".toList)) (some 0) = some 0) ∧
    (isBadFloatInput (.pfloat (5/2)) = false ∧
      ∃ q, pyFloat (.pfloat (5/2)) = Except.ok (FloatVal.finite q) ∧
        safe_float (.pfloat (5/2)) (some 0) = some q) :=
  ⟨⟨by decide, (safe_float_spec (.pstr ("abc".toList)) (some 0)).1 (by decide)⟩,
    ⟨by decide, (safe_float_spec (.pfloat (5/2)) (some 0)).2 (by decide)⟩⟩

/-- Counterexample to claim C7 as stated: the code replaces every
occurrence of `" MRP"`, not only a trailing suffix, so on the platform
column name `"Flat MRP Price"` it yields `"flat_price"` while the spec's
trailing-suffix rule yields `"flat_mrp_price"`. -/
theorem standardize_platform_name_counterexample :
    standardize_platform_name ("Flat MRP Price".toList) = ("flat_price".toList) ∧
    standardize_trailing_only ("Flat MRP Price".toList)
      = ("flat_mrp_price".toList) ∧
    standardize_platform_name ("Flat MRP Price".toList)
      ≠ standardize_trailing_only ("Flat MRP Price".toList) := by
  decide

/-- Claim C7 (amended): `standardize_platform_name` removes every
occurrence of `" MRP"` before lowercasing and underscoring; for a
space-free base followed by `" MRP"` this is exactly the trailing-suffix
strip, and `"Amazon MRP"` maps to `"amazon"`. -/
theorem standardize_platform_name_single_word (w : List Char)
    (hw : ∀ c ∈ w, c ≠ ' ') :
    standardize_platform_name (w ++ (" MRP".toList))
      = standardize_platform_name w ∧
    standardize_platform_name ("Amazon MRP".toList) = ("amazon".toList) := by
  constructor
  · unfold standardize_platform_name
    rw [removeMRP_strip w hw, removeMRP_nospace w hw]
  · decide

/-- Witness for C7 at the base `"Amazon"`. -/
theorem standardize_platform_name_witness :
    standardize_platform_name (("Amazon".toList) ++ (" MRP".toList))
      = standardize_platform_name ("Amazon".toList) ∧
    standardize_platform_name ("Amazon MRP".toList) = ("amazon".toList) :=
  standardize_platform_name_single_word ("Amazon".toList) (by decide)

/-- Counterexample to claim C8 as stated: the source data model's missing
sentinel is the float `nan` (a pandas `NaN` cell); on a row whose `Sku`
cell is that sentinel, `str(row.get('Sku', ''))` is `"nan"`, not the empty
string the claim requires. -/
theorem sku_nan_counterexample :
    (transform_row_to_document rowNanSku).sku = ("nan".toList) ∧
    ("nan".toList) ≠ ([] : List Char) := by
  decide

/-- Claim C8 (amended): `sku` and `style_id` are strings by construction;
each is the empty string when its column is absent from the row, and the
string `"nan"` when the cell holds the `NaN` missing sentinel. -/
theorem sku_style_id_spec (row : Row) :
    (rowGet row ("Sku".toList) = none →
      (transform_row_to_document row).sku = []) ∧
    (rowGet row ("Style Id".toList) = none →
      (transform_row_to_document row).style_id = []) ∧
    (rowGet row ("Sku".toList) = some PyVal.pnan →
      (transform_row_to_document row).sku = ("nan".toList)) ∧
    (rowGet row ("Style Id".toList) = some PyVal.pnan →
      (transform_row_to_document row).style_id = ("nan".toList)) := by
  refine ⟨?_, ?_, ?_, ?_⟩ <;> intro h <;>
    simp only [transform_row_to_document, rowGetD, h, Option.getD_none,
      Option.getD_some, pyStr]

/-- Witness for C8: the empty row has both columns absent; `rowNanSku`
holds the sentinel. -/
theorem sku_style_id_witness :
    (transform_row_to_document ([] : Row)).sku = ([] : List Char) ∧
    (transform_row_to_document ([] : Row)).style_id = ([] : List Char) ∧
    (transform_row_to_document rowNanSku).sku = ("nan".toList) :=
  ⟨(sku_style_id_spec []).1 rfl, (sku_style_id_spec []).2.1 rfl,
    (sku_style_id_spec rowNanSku).2.2.1 (by decide)⟩

/-- Claim C3: `cheapest_platform` and `cheapest_price` are null together
exactly when the `ecommerce_platforms` mapping is empty; otherwise they
name a pair of the mapping whose price is minimal among the mapping's
values, the first such pair in mapping order (which is the order in which
the platforms' qualifying columns are first encountered). -/
theorem cheapest_platform_spec (row : Row) :
    ((transform_row_to_document row).metadata.cheapest_platform = none ↔
      (transform_row_to_document row).ecommerce_platforms = []) ∧
    ((transform_row_to_document row).metadata.cheapest_price = none ↔
      (transform_row_to_document row).ecommerce_platforms = []) ∧
    (∀ k v,
      (transform_row_to_document row).metadata.cheapest_platform = some k →
      (transform_row_to_document row).metadata.cheapest_price = some v →
      ∃ pre post,
        (transform_row_to_document row).ecommerce_platforms
          = pre ++ (k, v) :: post ∧
        (∀ p ∈ pre, v < p.2) ∧ (∀ p ∈ post, v ≤ p.2)) := by
  have hcp : (transform_row_to_document row).metadata.cheapest_platform
      = (calculate_cheapest_platform row (platformColumns row)).1 := rfl
  have hcq : (transform_row_to_document row).metadata.cheapest_price
      = (calculate_cheapest_platform row (platformColumns row)).2 := rfl
  have hd : (transform_row_to_document row).ecommerce_platforms
      = qualifyingPrices row (platformColumns row) := rfl
  rw [hcp, hcq, hd]
  unfold calculate_cheapest_platform
  cases h : minBySnd (qualifyingPrices row (platformColumns row)) with
  | none =>
    have hnil := (minBySnd_eq_none_iff _).mp h
    simp [hnil]
  | some kv =>
    have hne : qualifyingPrices row (platformColumns row) ≠ [] := by
      intro hq
      rw [hq] at h
      simp [minBySnd] at h
    refine ⟨by simp [hne], by simp [hne], ?_⟩
    intro k v h1 h2
    have hk : kv.1 = k := by simpa using h1
    have hv : kv.2 = v := by simpa using h2
    have hkv : kv = (k, v) := by
      cases kv
      simp_all
    rw [hkv] at h
    exact minBySnd_spec _ (k, v) h

/-- Witness for C3 on the spec's example row (`Amazon MRP=100`,
`Ajio MRP=80`): the cheapest pair is `("ajio", 80)` and it is minimal in
the mapping. -/
theorem cheapest_platform_witness :
    ∃ pre post,
      (transform_row_to_document rowAmazonAjio).ecommerce_platforms
        = pre ++ (("ajio".toList), (80 : ℚ)) :: post ∧
      (∀ p ∈ pre, (80 : ℚ) < p.2) ∧ (∀ p ∈ post, (80 : ℚ) ≤ p.2) :=
  (cheapest_platform_spec rowAmazonAjio).2.2 ("ajio".toList) 80
    (by decide) (by decide)

/-- Claim C4: the `ecommerce_platforms` mapping has a key exactly for the
platform columns (name containing `MRP`, not reserved) whose value coerces
to a finite float strictly greater than `0`; every stored pair is the
normalized name and coerced price of such a column, so zero, negative,
missing and non-numeric values never contribute. -/
theorem ecommerce_platforms_keys_spec (row : Row) (k : List Char) :
    (k ∈ ((transform_row_to_document row).ecommerce_platforms).map Prod.fst ↔
      ∃ col, col ∈ platformColumns row ∧ ∃ q,
        safe_float (rowVal row col) none = some q ∧ 0 < q ∧
        standardize_platform_name col = k) ∧
    (∀ v, (k, v) ∈ (transform_row_to_document row).ecommerce_platforms →
      ∃ col, col ∈ platformColumns row ∧
        safe_float (rowVal row col) none = some v ∧ 0 < v ∧
        standardize_platform_name col = k) := by
  have hd : (transform_row_to_document row).ecommerce_platforms
      = dictFoldl [] (qualEntries row (platformColumns row)) :=
    qualifyingPrices_eq_dictFoldl row (platformColumns row)
  constructor
  · rw [hd, mem_keys_dictFoldl]
    simp only [List.map_nil, List.not_mem_nil, false_or]
    constructor
    · rintro ⟨⟨k2, v2⟩, he, hk⟩
      dsimp only at hk
      subst hk
      rcases (mem_qualEntries row _ k2 v2).mp he with ⟨col, hcol, hq, hname⟩
      rcases (qualify_eq_some row col v2).mp hq with ⟨hsf, hpos⟩
      exact ⟨col, hcol, v2, hsf, hpos, hname⟩
    · rintro ⟨col, hcol, q, hsf, hpos, hname⟩
      refine ⟨(k, q), ?_, rfl⟩
      exact (mem_qualEntries row _ k q).mpr
        ⟨col, hcol, (qualify_eq_some row col q).mpr ⟨hsf, hpos⟩, hname⟩
  · intro v hv
    rw [hd] at hv
    rcases mem_dictFoldl _ _ _ hv with h | h
    · simp at h
    · rcases (mem_qualEntries row _ k v).mp h with ⟨col, hcol, hq, hname⟩
      rcases (qualify_eq_some row col v).mp hq with ⟨hsf, hpos⟩
      exact ⟨col, hcol, hsf, hpos, hname⟩

/-- Witness for C4 on the row with one qualifying column `Amazon MRP=100`:
the key `"amazon"` is present, and the stored pair traces back to that
column. -/
theorem ecommerce_platforms_keys_witness :
    ("amazon".toList)
      ∈ ((transform_row_to_document rowAmazonOnly).ecommerce_platforms).map
          Prod.fst ∧
    (∃ col, col ∈ platformColumns rowAmazonOnly ∧
      safe_float (rowVal rowAmazonOnly col) none = some 100 ∧ (0 : ℚ) < 100 ∧
      standardize_platform_name col = ("amazon".toList)) :=
  ⟨(ecommerce_platforms_keys_spec rowAmazonOnly ("amazon".toList)).1.mpr
      ⟨("Amazon MRP".toList), by decide, 100, by decide, by decide, by decide⟩,
    (ecommerce_platforms_keys_spec rowAmazonOnly ("amazon".toList)).2 100
      (by decide)⟩

/-- Counterexample to claim C2 as stated: on `rowCollide` the two platform
columns both normalize to the key `"amazon"`, the dict keeps one entry
`("amazon", 50)` (so `max - min` over the mapping's values is `0`), but
the code computes `price_range` from the column price list `[100, 50]`,
giving `50.0`. -/
theorem price_range_mapping_counterexample :
    (transform_row_to_document rowCollide).metadata.price_range
      = PyNum.float 50 ∧
    (transform_row_to_document rowCollide).ecommerce_platforms
      = [(("amazon".toList), 50)] ∧
    mappingRange ((transform_row_to_document rowCollide).ecommerce_platforms)
      = 0 ∧
    (transform_row_to_document rowCollide).metadata.price_range
      ≠ PyNum.float
          (mappingRange
            ((transform_row_to_document rowCollide).ecommerce_platforms)) := by
  refine ⟨by decide, by decide, by decide, by decide⟩

/-- Claim C2 (amended): whenever the qualifying platform columns of a row
produce pairwise distinct normalized names — in particular for any
ordinary column set — `price_range` equals `max(values) - min(values)`
over exactly the values present in `ecommerce_platforms`, and `0` when the
mapping is empty.  (Without that hypothesis the code's `price_range` is
`max - min` over the per-column price list, as the counterexample shows.) -/
theorem price_range_eq_mapping_range_of_nodup (row : Row)
    (h : ((qualEntries row (platformColumns row)).map Prod.fst).Nodup) :
    (transform_row_to_document row).metadata.price_range
      = PyNum.float
          (mappingRange ((transform_row_to_document row).ecommerce_platforms)) := by
  have hproj : (transform_row_to_document row).ecommerce_platforms
      = qualifyingPrices row (platformColumns row) := rfl
  have hd : (transform_row_to_document row).ecommerce_platforms
      = qualEntries row (platformColumns row) := by
    rw [hproj, qualifyingPrices_eq_dictFoldl]
    have hnodup : (([] : List (List Char × ℚ)).map Prod.fst
        ++ (qualEntries row (platformColumns row)).map Prod.fst).Nodup := by
      simpa using h
    have := dictFoldl_of_nodup (qualEntries row (platformColumns row)) [] hnodup
    simpa using this
  have hcond : (platformPriceList row (platformColumns row)).isEmpty
      = (qualEntries row (platformColumns row)).isEmpty := by
    rw [platformPriceList_eq_map_snd]
    cases qualEntries row (platformColumns row) <;> rfl
  have hpr : (transform_row_to_document row).metadata.price_range
      = PyNum.float
          (if (platformPriceList row (platformColumns row)).isEmpty then 0
           else listMax (platformPriceList row (platformColumns row))
             - listMin (platformPriceList row (platformColumns row))) := rfl
  rw [hpr, hd]
  unfold mappingRange mappingValues
  rw [← platformPriceList_eq_map_snd, ← hcond]

/-- Witness for C2 on the spec's example row (`Amazon MRP=100`,
`Ajio MRP=80`), whose normalized names are distinct: `price_range` is the
mapping-based range (there `20.0`). -/
theorem price_range_mapping_witness :
    (transform_row_to_document rowAmazonAjio).metadata.price_range
      = PyNum.float
          (mappingRange
            ((transform_row_to_document rowAmazonAjio).ecommerce_platforms)) :=
  price_range_eq_mapping_range_of_nodup rowAmazonAjio (by decide)

/-- Counterexample to claim C5 as stated: on a row where no platform value
qualifies (`Amazon MRP=0`), the fallback of source lines 127-129 is the
int literal `0`, so `min_price`, `max_price` and `avg_price` are Python
ints, not floats. -/
theorem avg_price_not_float_counterexample :
    ((transform_row_to_document rowZeroPrice).metadata.min_price).isFloat
      = false ∧
    ((transform_row_to_document rowZeroPrice).metadata.max_price).isFloat
      = false ∧
    ((transform_row_to_document rowZeroPrice).metadata.avg_price).isFloat
      = false := by
  refine ⟨by decide, by decide, by decide⟩

/-- Claim C5 (amended): `min_price`, `max_price` and `avg_price` are
floats whenever at least one platform price qualifies; on a row with no
qualifying platform value they are instead the int `0` (numerically equal
to `0.0`), while `ecommerce_platforms` is empty, `cheapest_platform` and
`cheapest_price` are null and `price_range` is the float `0.0`, as the
claim's example states. -/
theorem metadata_price_fields_spec (row : Row) :
    ((platformPriceList row (platformColumns row)).isEmpty = false →
      ((transform_row_to_document row).metadata.min_price).isFloat = true ∧
      ((transform_row_to_document row).metadata.max_price).isFloat = true ∧
      ((transform_row_to_document row).metadata.avg_price).isFloat = true) ∧
    ((platformPriceList row (platformColumns row)).isEmpty = true →
      (transform_row_to_document row).ecommerce_platforms = [] ∧
      (transform_row_to_document row).metadata.cheapest_platform = none ∧
      (transform_row_to_document row).metadata.cheapest_price = none ∧
      (transform_row_to_document row).metadata.price_range = PyNum.float 0 ∧
      (transform_row_to_document row).metadata.min_price = PyNum.int 0 ∧
      (transform_row_to_document row).metadata.max_price = PyNum.int 0 ∧
      (transform_row_to_document row).metadata.avg_price = PyNum.int 0) := by
  have hmin : (transform_row_to_document row).metadata.min_price
      = (if (platformPriceList row (platformColumns row)).isEmpty
         then PyNum.int 0
         else PyNum.float (listMin (platformPriceList row (platformColumns row)))) :=
    rfl
  have hmax : (transform_row_to_document row).metadata.max_price
      = (if (platformPriceList row (platformColumns row)).isEmpty
         then PyNum.int 0
         else PyNum.float (listMax (platformPriceList row (platformColumns row)))) :=
    rfl
  have havg : (transform_row_to_document row).metadata.avg_price
      = (if (platformPriceList row (platformColumns row)).isEmpty
         then PyNum.int 0
         else PyNum.float
           (listSum (platformPriceList row (platformColumns row))
             / ((platformPriceList row (platformColumns row)).length : ℚ))) :=
    rfl
  have hpr : (transform_row_to_document row).metadata.price_range
      = PyNum.float
          (if (platformPriceList row (platformColumns row)).isEmpty then 0
           else listMax (platformPriceList row (platformColumns row))
             - listMin (platformPriceList row (platformColumns row))) := rfl
  constructor
  · intro hne
    rw [hmin, hmax, havg, hne]
    simp [PyNum.isFloat]
  · intro hyes
    have hppnil : platformPriceList row (platformColumns row) = [] := by
      cases hcase : platformPriceList row (platformColumns row) with
      | nil => rfl
      | cons a l => rw [hcase] at hyes; simp at hyes
    have hqenil : qualEntries row (platformColumns row) = [] := by
      have hms := platformPriceList_eq_map_snd row (platformColumns row)
      rw [hppnil] at hms
      cases hcase : qualEntries row (platformColumns row) with
      | nil => rfl
      | cons a l => rw [hcase] at hms; simp at hms
    have hqp : qualifyingPrices row (platformColumns row) = [] := by
      rw [qualifyingPrices_eq_dictFoldl, hqenil]
      rfl
    have hd : (transform_row_to_document row).ecommerce_platforms = [] := hqp
    have hcp : (transform_row_to_document row).metadata.cheapest_platform
        = (calculate_cheapest_platform row (platformColumns row)).1 := rfl
    have hcq : (transform_row_to_document row).metadata.cheapest_price
        = (calculate_cheapest_platform row (platformColumns row)).2 := rfl
    have hcc : calculate_cheapest_platform row (platformColumns row)
        = (none, none) := by
      unfold calculate_cheapest_platform
      rw [hqp]
      rfl
    refine ⟨hd, ?_, ?_, ?_, ?_, ?_, ?_⟩
    · rw [hcp, hcc]
    · rw [hcq, hcc]
    · rw [hpr, hyes]
      rfl
    · rw [hmin, hyes]
      rfl
    · rw [hmax, hyes]
      rfl
    · rw [havg, hyes]
      rfl

/-- Witness for C5: the no-qualifier row `rowZeroPrice` exercises the
empty case, the row `rowAmazonOnly` the float case. -/
theorem metadata_price_fields_witness :
    ((transform_row_to_document rowZeroPrice).ecommerce_platforms = [] ∧
      (transform_row_to_document rowZeroPrice).metadata.cheapest_platform
        = none ∧
      (transform_row_to_document rowZeroPrice).metadata.cheapest_price
        = none ∧
      (transform_row_to_document rowZeroPrice).metadata.price_range
        = PyNum.float 0 ∧
      (transform_row_to_document rowZeroPrice).metadata.min_price
        = PyNum.int 0 ∧
      (transform_row_to_document rowZeroPrice).metadata.max_price
        = PyNum.int 0 ∧
      (transform_row_to_document rowZeroPrice).metadata.avg_price
        = PyNum.int 0) ∧
    (((transform_row_to_document rowAmazonOnly).metadata.min_price).isFloat
        = true ∧
      ((transform_row_to_document rowAmazonOnly).metadata.max_price).isFloat
        = true ∧
      ((transform_row_to_document rowAmazonOnly).metadata.avg_price).isFloat
        = true) :=
  ⟨(metadata_price_fields_spec rowZeroPrice).2 (by decide),
    (metadata_price_fields_spec rowAmazonOnly).1 (by decide)⟩

/-- A `None` limit leaves the loaded rows untouched. -/
theorem applyLimit_none (rows : List Row) : applyLimit none rows = rows := rfl

/-- A limit of `0` is falsy in Python, so it also leaves the rows
untouched. -/
theorem applyLimit_zero (rows : List Row) :
    applyLimit (some 0) rows = rows := by
  simp [applyLimit]

/-- A strictly positive limit keeps exactly the first `n` rows. -/
theorem applyLimit_pos (rows : List Row) (n : ℤ) (hn : 0 < n) :
    applyLimit (some n) rows = rows.take n.toNat := by
  simp only [applyLimit]
  rw [if_neg (by omega), if_pos (le_of_lt hn)]

/-- Claim C9: the row loop applies the mapper to every row in file order,
a row whose mapping fails is skipped without affecting any other row, and
the successful documents are returned in the original row order: the loop
is exactly `filterMap` of the mapper's successes and distributes over
concatenation.  (The loop is stated over an `Except`-valued mapper because
the embedded `transform_row_to_document` is total; the source's `try`/
`except ... continue` is the `error` case.) -/
theorem transform_loop_spec (f : Row → Except Unit Document)
    (rows1 rows2 : List Row) :
    transformLoop f rows1 = rows1.filterMap (fun r => okValue (f r)) ∧
    transformLoop f (rows1 ++ rows2)
      = transformLoop f rows1 ++ transformLoop f rows2 :=
  ⟨transformLoop_eq_filterMap f rows1, transformLoop_append f rows1 rows2⟩

/-- Claim C10: the limit is applied only when truthy — `None` and `0`
process the entire dataset (every row is transformed, in order), while a
strictly positive limit `n` transforms exactly the first `n` rows (all
rows when fewer). -/
theorem transform_limit_spec (rows : List Row) (n : ℤ) :
    transform_csv_to_documents rows none
      = rows.map transform_row_to_document ∧
    transform_csv_to_documents rows (some 0)
      = rows.map transform_row_to_document ∧
    (0 < n → transform_csv_to_documents rows (some n)
      = (rows.take n.toNat).map transform_row_to_document) := by
  refine ⟨?_, ?_, ?_⟩
  · unfold transform_csv_to_documents
    rw [applyLimit_none]
    exact transformLoop_ok_eq_map _ rows
  · unfold transform_csv_to_documents
    rw [applyLimit_zero]
    exact transformLoop_ok_eq_map _ rows
  · intro hn
    unfold transform_csv_to_documents
    rw [applyLimit_pos rows n hn]
    exact transformLoop_ok_eq_map _ _

/-- Witness for C10 on three concrete rows with limit `2`. -/
theorem transform_limit_witness :
    transform_csv_to_documents rowsThree (some 2)
      = (rowsThree.take ((2 : ℤ).toNat)).map transform_row_to_document ∧
    transform_csv_to_documents rowsThree none
      = rowsThree.map transform_row_to_document :=
  ⟨(transform_limit_spec rowsThree 2).2.2 (by norm_num),
    (transform_limit_spec rowsThree 2).1⟩

end
